import Mathlib

set_option maxRecDepth 8192

/-!
Verification of the binary sleep-log decoding pipeline (`src/main.py`).

The program reads one `.bys` file into memory, converts the bytes to a hex
string, and then:
  * `parse_time`   decodes a 12-hex-char (6-byte) field into a `datetime`;
  * `parse_header` decodes start/end timestamps and the device model from
    fixed offsets of the hex string;
  * `parse_hex_data` reinterprets the whole hex string as 4-hex-char
    (2-byte) big-endian unsigned samples;
  * `analyze_pressure_data` slices samples `[26:-1]`, filters values `> 1`,
    computes max/min/median/length, builds a minute-spaced time axis and
    plots; it raises `ValueError` when nothing survives the filter;
  * `main` runs the pipeline, printing header lines, then the report lines,
    and on any exception prints `Error: {e}` and returns normally.

The embedding models the byte buffer as `List Nat` (each element one byte);
hex-string index `2*i` corresponds to byte index `i`, and `int(h, 16)` on an
empty slice is an error, mirroring Python.  Python's `datetime` constructor
range-validates its fields (year/month/day/hour/minute/second, in that
order), which the model reproduces, and `datetime + timedelta(minutes=i)`
is modelled extensionally by iterated minute increments with calendar
carries.
-/

namespace Sleep

/-- A Python `datetime` value: the six calendar fields, as stored after the
constructor's range checks succeeded. -/
structure Datetime where
  year : Nat
  month : Nat
  day : Nat
  hour : Nat
  minute : Nat
  second : Nat
deriving DecidableEq, Repr

/-- Gregorian leap-year rule, as used by Python's `datetime` module. -/
def isLeapYear (y : Nat) : Bool :=
  y % 4 == 0 && (y % 100 != 0 || y % 400 == 0)

/-- Number of days in a month of a given year (Python `calendar`/`datetime`
semantics); only meaningful for `1 ≤ m ≤ 12`. -/
def daysInMonth (y m : Nat) : Nat :=
  if m == 2 then (if isLeapYear y then 29 else 28)
  else if m == 4 || m == 6 || m == 9 || m == 11 then 30
  else 31

/-- The `datetime(year, month, day, hour, minute, second)` constructor:
range-checks each field in CPython's order and either returns the value or
raises `ValueError`.  Fields are `Nat`, so the lower bounds `0 ≤ hour` etc.
are automatic. -/
def mkDatetime (y mo d h mi s : Nat) : Except String Datetime :=
  if ¬(1 ≤ y ∧ y ≤ 9999) then .error "year is out of range"
  else if ¬(1 ≤ mo ∧ mo ≤ 12) then .error "month must be in 1..12"
  else if ¬(1 ≤ d ∧ d ≤ daysInMonth y mo) then .error "day is out of range for month"
  else if ¬(h ≤ 23) then .error "hour must be in 0..23"
  else if ¬(mi ≤ 59) then .error "minute must be in 0..59"
  else if ¬(s ≤ 59) then .error "second must be in 0..59"
  else .ok ⟨y, mo, d, h, mi, s⟩

/-- Reading byte `i` of a (slice of the) buffer: models
`int(hex_str[2*i : 2*i+2], 16)`.  The slice is empty exactly when the byte
is absent, and `int('', 16)` raises `ValueError`. -/
def getByte (bs : List Nat) (i : Nat) : Except String Nat :=
  match bs.get? i with
  | some b => .ok b
  | none => .error "invalid literal for int with base 16"

/-- `parse_time(hex_str)` from `src/main.py`: reads the six bytes of the
field in order (`year = byte0 + 2000`, the rest raw) and constructs the
`datetime`. -/
def parse_time (bs : List Nat) : Except String Datetime := do
  let y ← getByte bs 0
  let mo ← getByte bs 1
  let d ← getByte bs 2
  let h ← getByte bs 3
  let mi ← getByte bs 4
  let s ← getByte bs 5
  mkDatetime (y + 2000) mo d h mi s

/-- Python slice `hex_data[2*a : 2*b]` of the hex string, viewed on bytes:
elements with index `a ≤ i < b`, clamped to the buffer length. -/
def pySlice (bs : List Nat) (a b : Nat) : List Nat :=
  (bs.take b).drop a

/-- `bytes.fromhex(...).decode('latin1')`: each byte becomes the character
with that code point; this decoding never fails, so the
`"Unknown Model"` fallback in the source is unreachable. -/
def latin1 (bs : List Nat) : String :=
  String.mk (bs.map Char.ofNat)

/-- The decoded header returned by `parse_header`. -/
structure Header where
  start_time : Datetime
  end_time : Datetime
  device_model : String
deriving DecidableEq, Repr

/-- `parse_header(hex_data)` from `src/main.py`: `start_time` from hex chars
`[0:12]` (bytes `[0,6)`), `end_time` from `[12:24]` (bytes `[6,12)`),
`device_model` from `[64:96]` (bytes `[32,48)`) decoded as latin-1. -/
def parse_header (buf : List Nat) : Except String Header := do
  let st ← parse_time (pySlice buf 0 6)
  let et ← parse_time (pySlice buf 6 12)
  pure ⟨st, et, latin1 (pySlice buf 32 48)⟩

/-- `parse_hex_data(hex_data)` from `src/main.py`: the hex string is cut
into chunks of 4 characters starting at 0 and each chunk is parsed with
`int(h, 16)`.  On a buffer with an odd number of bytes the final chunk has
only 2 hex characters (one byte), which `int` still parses — it becomes a
final sample equal to that byte's value. -/
def parse_hex_data : List Nat → List Nat
  | [] => []
  | [b] => [b]
  | b0 :: b1 :: rest => (256 * b0 + b1) :: parse_hex_data rest

/-- `np.max` over a non-empty list of naturals (`0` on the empty list,
which `analyze_pressure_data` never reaches). -/
def listMax : List Nat → Nat
  | [] => 0
  | h :: t => t.foldl Nat.max h

/-- `np.min` over a non-empty list of naturals (`0` on the empty list,
which `analyze_pressure_data` never reaches). -/
def listMin : List Nat → Nat
  | [] => 0
  | h :: t => t.foldl Nat.min h

/-- Insert a value into an already ascending list, keeping it ascending. -/
def insertSorted (x : Nat) : List Nat → List Nat
  | [] => [x]
  | y :: t => if x ≤ y then x :: y :: t else y :: insertSorted x t

/-- Ascending insertion sort — the ascending sort `np.median` performs
before picking the central values. -/
def sortList : List Nat → List Nat
  | [] => []
  | x :: t => insertSorted x (sortList t)

/-- `np.median`: sort ascending, take the middle element for odd length,
the average of the two central elements for even length.  Computed in `ℚ`
(exact for the integer samples at hand). -/
def median (l : List Nat) : ℚ :=
  let s := sortList l
  let n := l.length
  if n % 2 == 1 then (s.getD (n / 2) 0 : ℚ)
  else ((s.getD (n / 2 - 1) 0 : ℚ) + (s.getD (n / 2) 0 : ℚ)) / 2

/-- One step of `datetime + timedelta(minutes=1)`: increment the minute and
carry through hour, day, month and year with Gregorian calendar rules.
Extensionally equal to Python's ordinal-based `datetime` arithmetic on
every value the constructor accepts. -/
def addOneMinute (d : Datetime) : Datetime :=
  if d.minute + 1 < 60 then { d with minute := d.minute + 1 }
  else if d.hour + 1 < 24 then { d with minute := 0, hour := d.hour + 1 }
  else if d.day + 1 ≤ daysInMonth d.year d.month then
    { d with minute := 0, hour := 0, day := d.day + 1 }
  else if d.month + 1 ≤ 12 then
    { d with minute := 0, hour := 0, day := 1, month := d.month + 1 }
  else
    { d with minute := 0, hour := 0, day := 1, month := 1, year := d.year + 1 }

/-- `start_time + timedelta(minutes=n)`. -/
def addMinutes (d : Datetime) (n : Nat) : Datetime :=
  addOneMinute^[n] d

/-- What `analyze_pressure_data` computes and hands on: the returned dict
(`sleep_mins`, `max_pressure`, `min_pressure`, `median_pressure`,
`valid_pressures`) together with the minute-spaced x-axis it builds for
the chart. -/
structure AnalysisResult where
  sleep_mins : Nat
  max_pressure : Nat
  min_pressure : Nat
  median_pressure : ℚ
  valid_pressures : List Nat
  timestamp_axis : List Datetime
deriving DecidableEq, Repr

/-- The slice-and-filter step of `analyze_pressure_data`:
`[value for value in pressure_values[26:-1] if value > 1]`. -/
def validSlice (pv : List Nat) : List Nat :=
  ((pv.take (pv.length - 1)).drop 26).filter (fun v => 1 < v)

/-- `analyze_pressure_data(start_time, pressure_values)` from `src/main.py`:
slices `[26:-1]`, filters `> 1`, raises `ValueError` when nothing is left,
otherwise computes the aggregates and the x-axis
`[start_time + timedelta(minutes=i) for i in range(sleep_mins)]`. -/
def analyze_pressure_data (start_time : Datetime) (pressure_values : List Nat) :
    Except String AnalysisResult :=
  let valid := validSlice pressure_values
  if valid.isEmpty then .error "No valid pressure values found."
  else .ok
    { sleep_mins := valid.length
      max_pressure := listMax valid
      min_pressure := listMin valid
      median_pressure := median valid
      valid_pressures := valid
      timestamp_axis := (List.range valid.length).map (fun i => addMinutes start_time i) }

/-- One `print(...)` event of `main`, with its payload.  The three header
lines are printed right after `parse_header`; the five report lines only
after `analyze_pressure_data` returned; `errorLine` is the
`print(f"Error: \x7be\x7d")` of the `except` block. -/
inductive OutputLine where
  | startLine (d : Datetime)
  | endLine (d : Datetime)
  | modelLine (s : String)
  | sleepLine (n : Nat)
  | maxLine (n : Nat)
  | minLine (n : Nat)
  | medianLine (q : ℚ)
  | previewLine (l : List Nat)
  | errorLine (msg : String)
deriving DecidableEq, Repr

/-- The input `main` finds at the hardcoded path: either the file is
missing, or it holds these bytes. -/
inductive Input where
  | missing
  | found (buf : List Nat)

/-- Outcome of one run of the process: the printed lines in order, whether
`plt.show()` displayed the chart (it is called only on the successful
analysis path, before the report lines are printed), and the process exit
status. -/
structure RunResult where
  lines : List OutputLine
  chartShown : Bool
  exitCode : Nat
deriving DecidableEq, Repr

/-- `main()` from `src/main.py`, plus the interpreter's exit behaviour: the
`try` body prints the header lines, then runs the analysis, then prints the
report lines; `except Exception as e` prints `Error: \x7be\x7d` and falls
through, so the process always exits with status 0. -/
def main_run : Input → RunResult
  | .missing => ⟨[.errorLine "File not found: 00100009.bys"], false, 0⟩
  | .found buf =>
    match parse_header buf with
    | .error e => ⟨[.errorLine e], false, 0⟩
    | .ok h =>
      let headerLines : List OutputLine :=
        [.startLine h.start_time, .endLine h.end_time, .modelLine h.device_model]
      match analyze_pressure_data h.start_time (parse_hex_data buf) with
      | .error e => ⟨headerLines ++ [.errorLine e], false, 0⟩
      | .ok r =>
        ⟨headerLines ++
          [.sleepLine r.sleep_mins, .maxLine r.max_pressure, .minLine r.min_pressure,
           .medianLine r.median_pressure, .previewLine (r.valid_pressures.take 10)],
         true, 0⟩

/-! ### Helper lemmas -/

instance instDecEqExcept {e a : Type} [DecidableEq e] [DecidableEq a] :
    DecidableEq (Except e a) := fun x y =>
  match x, y with
  | .error u, .error v =>
    decidable_of_iff (u = v) ⟨fun h => by rw [h], fun h => by cases h; rfl⟩
  | .error _, .ok _ => isFalse (fun h => Except.noConfusion h)
  | .ok _, .error _ => isFalse (fun h => Except.noConfusion h)
  | .ok u, .ok v =>
    decidable_of_iff (u = v) ⟨fun h => by rw [h], fun h => by cases h; rfl⟩

theorem ok_bind {α β : Type} (a : α) (f : α → Except String β) :
    (Except.ok a >>= f) = f a := rfl

theorem error_bind {α β : Type} (e : String) (f : α → Except String β) :
    ((Except.error e : Except String α) >>= f) = .error e := rfl

/-- `parse_time` can only succeed when all six bytes of the field are
present. -/
theorem parse_time_ok_length {bs : List Nat} {dt : Datetime}
    (h : parse_time bs = .ok dt) : 6 ≤ bs.length := by
  by_contra hlt
  push_neg at hlt
  have h5 : bs.get? 5 = none := by
    rw [List.get?_eq_none]
    omega
  rcases h0 : bs.get? 0 with _ | y <;>
    simp only [parse_time, getByte, h0, ok_bind, error_bind, reduceCtorEq] at h
  rcases h1 : bs.get? 1 with _ | mo <;>
    simp only [h1, ok_bind, error_bind, reduceCtorEq] at h
  rcases h2 : bs.get? 2 with _ | d <;>
    simp only [h2, ok_bind, error_bind, reduceCtorEq] at h
  rcases h3 : bs.get? 3 with _ | hh <;>
    simp only [h3, ok_bind, error_bind, reduceCtorEq] at h
  rcases h4 : bs.get? 4 with _ | mi <;>
    simp only [h4, ok_bind, error_bind, reduceCtorEq] at h
  simp only [h5, ok_bind, error_bind, reduceCtorEq] at h

/-- A field slice with fewer than 6 bytes makes `parse_time` fail
(`int('', 16)` raises `ValueError`). -/
theorem parse_time_short {bs : List Nat} (h : bs.length < 6) :
    ∃ e, parse_time bs = .error e := by
  rcases hp : parse_time bs with e | dt
  · exact ⟨e, rfl⟩
  · exact absurd (parse_time_ok_length hp) (by omega)

/-- On a fully-present six-byte field, `parse_time` is the `datetime`
constructor applied to the literally decoded fields. -/
theorem parse_time_cons (y mo d h mi s : Nat) (t : List Nat) :
    parse_time (y :: mo :: d :: h :: mi :: s :: t) =
      mkDatetime (y + 2000) mo d h mi s := by
  simp only [parse_time, getByte, List.get?_cons_zero, List.get?_cons_succ, ok_bind]

theorem foldl_max_mem (t : List Nat) (a : Nat) :
    t.foldl Nat.max a = a ∨ t.foldl Nat.max a ∈ t := by
  induction t generalizing a with
  | nil => exact .inl rfl
  | cons b t ih =>
    rcases ih (Nat.max a b) with h | h
    · have hm : Nat.max a b = a ∨ Nat.max a b = b :=
        (Nat.le_total b a).imp Nat.max_eq_left Nat.max_eq_right
      rcases hm with hm | hm <;> rw [List.foldl_cons, h, hm]
      · exact .inl rfl
      · exact .inr (List.mem_cons_self b t)
    · exact .inr (List.mem_cons_of_mem b h)

theorem le_foldl_max (t : List Nat) (a : Nat) :
    a ≤ t.foldl Nat.max a ∧ ∀ x ∈ t, x ≤ t.foldl Nat.max a := by
  induction t generalizing a with
  | nil => exact ⟨Nat.le_refl a, by simp⟩
  | cons b t ih =>
    refine ⟨Nat.le_trans (Nat.le_max_left a b) (ih (Nat.max a b)).1, ?_⟩
    intro x hx
    rcases List.mem_cons.mp hx with rfl | hx
    · exact Nat.le_trans (Nat.le_max_right a x) (ih (Nat.max a x)).1
    · exact (ih (Nat.max a b)).2 x hx

theorem foldl_min_mem (t : List Nat) (a : Nat) :
    t.foldl Nat.min a = a ∨ t.foldl Nat.min a ∈ t := by
  induction t generalizing a with
  | nil => exact .inl rfl
  | cons b t ih =>
    rcases ih (Nat.min a b) with h | h
    · have hm : Nat.min a b = a ∨ Nat.min a b = b :=
        (Nat.le_total a b).imp Nat.min_eq_left Nat.min_eq_right
      rcases hm with hm | hm <;> rw [List.foldl_cons, h, hm]
      · exact .inl rfl
      · exact .inr (List.mem_cons_self b t)
    · exact .inr (List.mem_cons_of_mem b h)

theorem foldl_min_le (t : List Nat) (a : Nat) :
    t.foldl Nat.min a ≤ a ∧ ∀ x ∈ t, t.foldl Nat.min a ≤ x := by
  induction t generalizing a with
  | nil => exact ⟨Nat.le_refl a, by simp⟩
  | cons b t ih =>
    refine ⟨Nat.le_trans (ih (Nat.min a b)).1 (Nat.min_le_left a b), ?_⟩
    intro x hx
    rcases List.mem_cons.mp hx with rfl | hx
    · exact Nat.le_trans (ih (Nat.min a x)).1 (Nat.min_le_right a x)
    · exact (ih (Nat.min a b)).2 x hx

theorem listMax_mem {l : List Nat} (h : l ≠ []) : listMax l ∈ l := by
  rcases l with _ | ⟨b, t⟩
  · exact absurd rfl h
  · rcases foldl_max_mem t b with hm | hm
    · rw [listMax, hm]; exact List.mem_cons_self b t
    · exact List.mem_cons_of_mem b hm

theorem le_listMax {l : List Nat} {x : Nat} (h : x ∈ l) : x ≤ listMax l := by
  rcases l with _ | ⟨b, t⟩
  · simp at h
  · rcases List.mem_cons.mp h with rfl | hx
    · exact (le_foldl_max t x).1
    · exact (le_foldl_max t b).2 x hx

theorem listMin_mem {l : List Nat} (h : l ≠ []) : listMin l ∈ l := by
  rcases l with _ | ⟨b, t⟩
  · exact absurd rfl h
  · rcases foldl_min_mem t b with hm | hm
    · rw [listMin, hm]; exact List.mem_cons_self b t
    · exact List.mem_cons_of_mem b hm

theorem listMin_le {l : List Nat} {x : Nat} (h : x ∈ l) : listMin l ≤ x := by
  rcases l with _ | ⟨b, t⟩
  · simp at h
  · rcases List.mem_cons.mp h with rfl | hx
    · exact (foldl_min_le t x).1
    · exact (foldl_min_le t b).2 x hx

/-- Every byte below 256 makes every decoded sample at most 65535. -/
theorem parse_hex_data_le {buf : List Nat} (hb : ∀ b ∈ buf, b < 256) :
    ∀ x ∈ parse_hex_data buf, x ≤ 65535 := by
  induction buf using parse_hex_data.induct with
  | case1 => simp [parse_hex_data]
  | case2 b =>
    intro x hx
    rcases List.mem_singleton.mp hx with rfl
    have := hb x (List.mem_singleton.mpr rfl)
    omega
  | case3 b0 b1 rest ih =>
    intro x hx
    rcases List.mem_cons.mp hx with rfl | hx
    · have h0 := hb b0 (by simp)
      have h1 := hb b1 (by simp)
      omega
    · exact ih (fun b hbm => hb b (by simp [hbm])) x hx

theorem mem_validSlice_lt {pv : List Nat} {x : Nat} (h : x ∈ validSlice pv) :
    1 < x := by
  have := (List.mem_filter.mp h).2
  simpa using this

theorem validSlice_sublist (pv : List Nat) :
    (validSlice pv).Sublist (pv.take (pv.length - 1)) :=
  ((List.filter_sublist _).trans (List.drop_sublist _ _))

theorem mem_of_mem_validSlice {pv : List Nat} {x : Nat}
    (h : x ∈ validSlice pv) : x ∈ pv :=
  ((validSlice_sublist pv).trans (List.take_sublist _ _)).mem h

/-- Inversion for a successful run of `analyze_pressure_data`. -/
theorem analyze_ok {start : Datetime} {pv : List Nat} {r : AnalysisResult}
    (h : analyze_pressure_data start pv = .ok r) :
    validSlice pv ≠ [] ∧
    r.valid_pressures = validSlice pv ∧
    r.sleep_mins = (validSlice pv).length ∧
    r.max_pressure = listMax (validSlice pv) ∧
    r.min_pressure = listMin (validSlice pv) ∧
    r.median_pressure = median (validSlice pv) ∧
    r.timestamp_axis =
      (List.range (validSlice pv).length).map (fun i => addMinutes start i) := by
  by_cases he : (validSlice pv).isEmpty
  · simp [analyze_pressure_data, he] at h
  · rw [analyze_pressure_data] at h
    simp only [he, Bool.false_eq_true, if_false] at h
    have hr := (Except.ok.injEq _ _).mp h
    subst hr
    exact ⟨fun hnil => he (by simp [hnil]), rfl, rfl, rfl, rfl, rfl, rfl⟩

theorem axis_getD {n i : Nat} {f : Nat → Datetime} {d : Datetime}
    (h : i < n) : (((List.range n).map f).getD i d) = f i := by
  simp [List.getD_eq_getElem?_getD, List.getElem?_range h]

/-! ### C1 — minimum-length check -/

/-- C1 counterexample: the 12-byte buffer holding just the two timestamp
fields is shorter than 48 bytes, yet `parse_header` succeeds (the device
model is decoded from the empty slice as the empty string), so header
decoding does not fail with `TruncatedInput` on every buffer shorter than
48 bytes. -/
theorem C1_counterexample :
    ([0x18, 0x06, 0x0b, 0x16, 0x21, 0x00,
      0x18, 0x06, 0x0c, 0x06, 0x1d, 0x00] : List Nat).length < 48 ∧
    parse_header [0x18, 0x06, 0x0b, 0x16, 0x21, 0x00,
                  0x18, 0x06, 0x0c, 0x06, 0x1d, 0x00] =
      .ok ⟨⟨2024, 6, 11, 22, 33, 0⟩, ⟨2024, 6, 12, 6, 29, 0⟩, ""⟩ := by
  decide

/-- C1 (amended): `parse_header` performs no 48-byte minimum-length check
and has no dedicated truncation error.  A buffer shorter than 12 bytes does
always fail header decoding, because one of the two timestamp fields is
incomplete and parsing its empty hex slice fails, but a 12-byte buffer
whose timestamp fields are valid decodes successfully even though offsets
up to 48 are missing. -/
theorem C1_header_no_length_check :
    (∀ buf : List Nat, buf.length < 12 → ∃ e, parse_header buf = .error e) ∧
    parse_header [0x18, 0x06, 0x0b, 0x16, 0x21, 0x00,
                  0x18, 0x06, 0x0c, 0x06, 0x1d, 0x00] =
      .ok ⟨⟨2024, 6, 11, 22, 33, 0⟩, ⟨2024, 6, 12, 6, 29, 0⟩, ""⟩ := by
  constructor
  · intro buf hlen
    by_cases hs : buf.length < 6
    · obtain ⟨e, he⟩ := @parse_time_short (pySlice buf 0 6)
        (by simp [pySlice]; omega)
      exact ⟨e, by simp only [parse_header, he, error_bind]⟩
    · obtain ⟨e2, he2⟩ := @parse_time_short (pySlice buf 6 12)
        (by simp [pySlice]; omega)
      rcases h1 : parse_time (pySlice buf 0 6) with e1 | st
      · exact ⟨e1, by simp only [parse_header, h1, error_bind]⟩
      · exact ⟨e2, by simp only [parse_header, h1, he2, ok_bind, error_bind]⟩
  · decide

/-- C1 witness: the empty buffer is shorter than 12 bytes, and header
decoding fails on it. -/
theorem C1_witness : ∃ e, parse_header [] = .error e :=
  C1_header_no_length_check.1 [] (by decide)

/-! ### C2 — sample decoding -/

/-- C2 counterexample: on the odd-length buffer `00 02 03` the decoder
yields `[2, 3]` — the trailing byte `03` is kept as a final sample, and the
length is 2, not `floor(3/2) = 1`. -/
theorem C2_counterexample :
    parse_hex_data [0, 2, 3] = [2, 3] ∧
    ¬ (parse_hex_data [0, 2, 3]).length = ([0, 2, 3] : List Nat).length / 2 := by
  decide

/-- C2 (amended): the buffer is cut into consecutive 2-byte chunks from
offset 0, each decoded as an unsigned big-endian 16-bit integer, and the
4-byte buffer `00 02 03 E8` yields `[2, 1000]`; but a trailing odd byte is
not dropped: it is parsed as a final sample equal to its own value, so the
resulting series has length `ceil(len(buffer)/2)`. -/
theorem C2_sample_decode :
    (∀ buf : List Nat, (parse_hex_data buf).length = (buf.length + 1) / 2) ∧
    (∀ (buf : List Nat) (i : Nat), 2 * i + 1 < buf.length →
      (parse_hex_data buf).getD i 0 =
        256 * buf.getD (2 * i) 0 + buf.getD (2 * i + 1) 0) ∧
    (∀ (buf : List Nat) (b : Nat), buf.length % 2 = 0 →
      parse_hex_data (buf ++ [b]) = parse_hex_data buf ++ [b]) ∧
    parse_hex_data [0x00, 0x02, 0x03, 0xE8] = [2, 1000] := by
  refine ⟨?_, ?_, ?_, by decide⟩
  · intro buf
    induction buf using parse_hex_data.induct with
    | case1 => rfl
    | case2 b => simp [parse_hex_data]
    | case3 b0 b1 rest ih =>
      simp only [parse_hex_data, List.length_cons, ih]
      omega
  · intro buf
    induction buf using parse_hex_data.induct with
    | case1 => intro i h; simp only [List.length_nil] at h; omega
    | case2 b => intro i h; simp only [List.length_cons, List.length_nil] at h; omega
    | case3 b0 b1 rest ih =>
      intro i h
      cases i with
      | zero => simp [parse_hex_data]
      | succ j =>
        have hj : 2 * j + 1 < rest.length := by
          simp only [List.length_cons] at h; omega
        have e1 : 2 * (j + 1) = (2 * j + 1) + 1 := by omega
        have e2 : 2 * (j + 1) + 1 = (2 * j + 1 + 1) + 1 := by omega
        calc (parse_hex_data (b0 :: b1 :: rest)).getD (j + 1) 0
            = (parse_hex_data rest).getD j 0 := by
              simp [parse_hex_data]
          _ = 256 * rest.getD (2 * j) 0 + rest.getD (2 * j + 1) 0 := ih j hj
          _ = 256 * (b0 :: b1 :: rest).getD (2 * (j + 1)) 0 +
              (b0 :: b1 :: rest).getD (2 * (j + 1) + 1) 0 := by
              rw [e2, e1, List.getD_cons_succ, List.getD_cons_succ,
                List.getD_cons_succ, List.getD_cons_succ]
  · intro buf b
    induction buf using parse_hex_data.induct with
    | case1 => intro h; rfl
    | case2 b0 => intro h; simp at h
    | case3 b0 b1 rest ih =>
      intro h
      have hr : rest.length % 2 = 0 := by
        simp only [List.length_cons] at h; omega
      simp only [List.cons_append, parse_hex_data, List.append_eq, ih hr]

/-- C2 witness: reading chunk 0 of the buffer `00 02 03` through the
chunk-indexing equation. -/
theorem C2_witness :
    (parse_hex_data [0, 2, 3]).getD 0 0 =
      256 * ([0, 2, 3] : List Nat).getD 0 0 + ([0, 2, 3] : List Nat).getD 1 0 :=
  C2_sample_decode.2.1 [0, 2, 3] 0 (by decide)

/-! ### C3 — timestamp field validation -/

/-- C3 counterexample: a timestamp field with month byte 13 is rejected by
the `datetime` constructor with `ValueError`, so out-of-range values are
not preserved as decoded. -/
theorem C3_counterexample :
    parse_time [24, 13, 1, 0, 0, 0] = .error "month must be in 1..12" := by
  decide

/-- C3 (amended): the six bytes are decoded literally (`year = byte0 +
2000`, the other five fields raw, no normalization), but the `datetime`
constructor range-validates them: in-range fields are preserved exactly as
decoded, while an out-of-range field such as month 13 raises `ValueError`
instead of being kept. -/
theorem C3_fields_literal_but_validated :
    ∀ y mo d h mi s : Nat, y ≤ 255 →
      ((1 ≤ mo ∧ mo ≤ 12 ∧ 1 ≤ d ∧ d ≤ daysInMonth (y + 2000) mo ∧
          h ≤ 23 ∧ mi ≤ 59 ∧ s ≤ 59) →
        parse_time [y, mo, d, h, mi, s] = .ok ⟨y + 2000, mo, d, h, mi, s⟩) ∧
      (12 < mo → ∃ e, parse_time [y, mo, d, h, mi, s] = .error e) := by
  intro y mo d h mi s hy
  constructor
  · rintro ⟨h1, h2, h3, h4, h5, h6, h7⟩
    rw [parse_time_cons]
    simp only [mkDatetime]
    rw [if_neg (not_not_intro ⟨by omega, by omega⟩),
      if_neg (not_not_intro ⟨h1, h2⟩), if_neg (not_not_intro ⟨h3, h4⟩),
      if_neg (not_not_intro h5), if_neg (not_not_intro h6),
      if_neg (not_not_intro h7)]
  · intro hmo
    refine ⟨"month must be in 1..12", ?_⟩
    rw [parse_time_cons]
    simp only [mkDatetime]
    rw [if_neg (not_not_intro ⟨by omega, by omega⟩), if_pos (by omega)]

/-- C3 witness: the in-range field bytes `18 06 0b 16 21 00` decode to the
literal datetime 2024-06-11 22:33:00. -/
theorem C3_witness :
    parse_time [24, 6, 11, 22, 33, 0] = .ok ⟨2024, 6, 11, 22, 33, 0⟩ :=
  (C3_fields_literal_but_validated 24 6 11 22 33 0 (by decide)).1 (by decide)

/-! ### Worked example data (shared by several claims) -/

/-- Concrete start time used in the worked examples: 2024-06-11 22:33:00. -/
def exampleStart : Datetime := ⟨2024, 6, 11, 22, 33, 0⟩

/-- The design's end-to-end sample scenario: 26 leading padding samples,
payload `5 7 2 1 9`, and a trailing `0` sample. -/
def examplePressures : List Nat := List.replicate 26 0 ++ [5, 7, 2, 1, 9, 0]

/-- The analysis outcome on `examplePressures` started at `exampleStart`. -/
def exampleResult : AnalysisResult :=
  ⟨4, 9, 2, 6, [5, 7, 2, 9],
   [⟨2024, 6, 11, 22, 33, 0⟩, ⟨2024, 6, 11, 22, 34, 0⟩,
    ⟨2024, 6, 11, 22, 35, 0⟩, ⟨2024, 6, 11, 22, 36, 0⟩]⟩

/-- Evaluating the median on the worked example's retained samples:
sorted `[2, 5, 7, 9]`, central values 5 and 7, average 6. -/
theorem median_example : median [5, 7, 2, 9] = 6 := by
  simp only [median, sortList, insertSorted]
  norm_num

/-- Evaluating the analysis on the worked example. -/
theorem analyze_example :
    analyze_pressure_data exampleStart examplePressures = .ok exampleResult := by
  have hv : validSlice examplePressures = [5, 7, 2, 9] := by decide
  simp only [analyze_pressure_data, hv, median_example]
  decide

/-! ### C4 — slicing and filtering -/

/-- C4: the retained samples are exactly the slice of the sample series
from index 26 up to but excluding the last index, filtered to values
greater than 1; consequently every retained sample exceeds 1 and the
retained list is drawn from the series with its final element removed,
unconditionally; a successful analysis reports exactly this list. -/
theorem C4_valid_slice_filter (pv : List Nat) :
    validSlice pv = ((pv.take (pv.length - 1)).drop 26).filter (fun v => 1 < v) ∧
    (∀ x ∈ validSlice pv, 1 < x) ∧
    (validSlice pv).Sublist (pv.take (pv.length - 1)) ∧
    (∀ (start : Datetime) (r : AnalysisResult),
      analyze_pressure_data start pv = .ok r → r.valid_pressures = validSlice pv) := by
  refine ⟨rfl, fun x hx => mem_validSlice_lt hx, validSlice_sublist pv, ?_⟩
  intro start r h
  exact (analyze_ok h).2.1

/-- C4 witness: the worked example's reported samples are the sliced and
filtered series. -/
theorem C4_witness : exampleResult.valid_pressures = validSlice examplePressures :=
  (C4_valid_slice_filter examplePressures).2.2.2 exampleStart exampleResult analyze_example

/-! ### C5 — aggregates -/

/-- C5: on every successful analysis the reported maximum and minimum are a
greatest and a least element of the retained samples, the median is the
sort-and-average-the-two-central-values median, and `sleep_mins` counts the
retained samples; the worked example with retained samples `[5, 7, 2, 9]`
reports 4 minutes, max 9, min 2 and median 6. -/
theorem C5_aggregates :
    (∀ (start : Datetime) (pv : List Nat) (r : AnalysisResult),
      analyze_pressure_data start pv = .ok r →
      r.max_pressure ∈ r.valid_pressures ∧
      (∀ x ∈ r.valid_pressures, x ≤ r.max_pressure) ∧
      r.min_pressure ∈ r.valid_pressures ∧
      (∀ x ∈ r.valid_pressures, r.min_pressure ≤ x) ∧
      r.median_pressure = median r.valid_pressures ∧
      r.sleep_mins = r.valid_pressures.length) ∧
    analyze_pressure_data exampleStart examplePressures = .ok exampleResult ∧
    exampleResult.valid_pressures = [5, 7, 2, 9] ∧
    exampleResult.sleep_mins = 4 ∧ exampleResult.max_pressure = 9 ∧
    exampleResult.min_pressure = 2 ∧ exampleResult.median_pressure = 6 := by
  refine ⟨?_, analyze_example, by decide, by decide, by decide, by decide, rfl⟩
  intro start pv r h
  obtain ⟨hne, hvp, hsm, hmax, hmin, hmed, -⟩ := analyze_ok h
  rw [hvp, hsm, hmax, hmin, hmed]
  exact ⟨listMax_mem hne, fun x hx => le_listMax hx,
    listMin_mem hne, fun x hx => listMin_le hx, rfl, rfl⟩

/-- C5 witness: on the worked example the reported maximum is one of the
retained samples. -/
theorem C5_witness : exampleResult.max_pressure ∈ exampleResult.valid_pressures :=
  (C5_aggregates.1 exampleStart examplePressures exampleResult analyze_example).1

/-! ### C6 — empty-data failure -/

/-- C6: the analysis fails exactly when the sliced-and-filtered sample list
is empty, the only error it raises is the `No valid pressure values found.`
`ValueError`, and on that failure `main` prints the header lines followed
by the error line only — no report lines — and shows no chart. -/
theorem C6_no_valid_data :
    (∀ (start : Datetime) (pv : List Nat),
      (∃ e, analyze_pressure_data start pv = .error e) ↔ validSlice pv = []) ∧
    (∀ (start : Datetime) (pv : List Nat) (e : String),
      analyze_pressure_data start pv = .error e →
      e = "No valid pressure values found.") ∧
    (∀ (buf : List Nat) (h : Header), parse_header buf = .ok h →
      validSlice (parse_hex_data buf) = [] →
      main_run (.found buf) =
        ⟨[.startLine h.start_time, .endLine h.end_time, .modelLine h.device_model,
          .errorLine "No valid pressure values found."], false, 0⟩) := by
  refine ⟨?_, ?_, ?_⟩
  · intro start pv
    constructor
    · rintro ⟨e, he⟩
      by_cases hE : (validSlice pv).isEmpty
      · exact List.isEmpty_iff.mp hE
      · rw [analyze_pressure_data] at he
        simp [hE] at he
    · intro hnil
      refine ⟨"No valid pressure values found.", ?_⟩
      rw [analyze_pressure_data]
      simp [hnil]
  · intro start pv e he
    rw [analyze_pressure_data] at he
    by_cases hE : (validSlice pv).isEmpty
    · simp only [hE, if_true] at he
      exact ((Except.error.injEq _ _).mp he).symm
    · simp [hE] at he
  · intro buf h hph hnil
    have hana : analyze_pressure_data h.start_time (parse_hex_data buf) =
        .error "No valid pressure values found." := by
      rw [analyze_pressure_data]
      simp [hnil]
    simp [main_run, hph, hana]

/-- C6 witness: the 12-byte header-only buffer parses, yields only 6
samples (so the slice from 26 is empty), and the run stops at the
`NoValidData` error with no report lines and no chart. -/
theorem C6_witness :
    main_run (.found [0x18, 0x06, 0x0b, 0x16, 0x21, 0x00,
                      0x18, 0x06, 0x0c, 0x06, 0x1d, 0x00]) =
      ⟨[.startLine ⟨2024, 6, 11, 22, 33, 0⟩, .endLine ⟨2024, 6, 12, 6, 29, 0⟩,
        .modelLine "", .errorLine "No valid pressure values found."], false, 0⟩ :=
  C6_no_valid_data.2.2 _ ⟨⟨2024, 6, 11, 22, 33, 0⟩, ⟨2024, 6, 12, 6, 29, 0⟩, ""⟩
    (by decide) (by decide)

/-! ### C7 — timestamp axis -/

/-- C7: on every successful analysis the x-axis has exactly `sleep_mins`
entries, entry `i` is the start time plus `i` minutes, and entry 0 is the
start time itself.  `analyze_pressure_data` receives only the start time —
the header's end time is not an argument, so the axis cannot consult it. -/
theorem C7_axis (start : Datetime) (pv : List Nat) (r : AnalysisResult)
    (h : analyze_pressure_data start pv = .ok r) :
    r.timestamp_axis.length = r.sleep_mins ∧
    0 < r.sleep_mins ∧
    (∀ i, i < r.sleep_mins → r.timestamp_axis.getD i start = addMinutes start i) ∧
    r.timestamp_axis.getD 0 start = start := by
  obtain ⟨hne, -, hsm, -, -, -, hax⟩ := analyze_ok h
  have hpos : 0 < (validSlice pv).length := List.length_pos.mpr hne
  refine ⟨?_, ?_, ?_, ?_⟩
  · rw [hax, hsm]
    simp
  · rw [hsm]
    exact hpos
  · intro i hi
    rw [hsm] at hi
    rw [hax]
    exact axis_getD hi
  · have h0 : r.timestamp_axis.getD 0 start = addMinutes start 0 := by
      rw [hax]
      exact axis_getD hpos
    rw [h0]
    rfl

/-- C7 witness: on the worked example the first axis entry is the start
time. -/
theorem C7_witness : exampleResult.timestamp_axis.getD 0 exampleStart = exampleStart :=
  (C7_axis exampleStart examplePressures exampleResult analyze_example).2.2.2

/-! ### C8 — header offsets -/

/-- The start-time field bytes of the worked header. -/
def startFieldBytes : List Nat := [0x18, 0x06, 0x0b, 0x16, 0x21, 0x00]

/-- The end-time field bytes of the worked header. -/
def endFieldBytes : List Nat := [0x18, 0x06, 0x0c, 0x06, 0x1d, 0x00]

/-- The device-model field bytes of the worked header. -/
def modelFieldBytes : List Nat :=
  [0x59, 0x48, 0x35, 0x36, 0x30, 0x41, 0x2d, 0x32,
   0x34, 0x33, 0x32, 0x32, 0x30, 0x34, 0x39, 0x32]

/-- C8: the header is read only from the fixed byte windows `[0,12)` (the
two timestamps) and `[32,48)` (the device model) — two buffers agreeing
there decode identically — and a buffer carrying the worked field bytes at
those offsets (any 20 filler bytes in `[12,32)`, any tail from 48 on)
decodes to start 2024-06-11 22:33:00, end 2024-06-12 06:29:00 and model
`"YH560A-243220492"`. -/
theorem C8_header_offsets :
    (∀ b1 b2 : List Nat, b1.take 12 = b2.take 12 →
      pySlice b1 32 48 = pySlice b2 32 48 → parse_header b1 = parse_header b2) ∧
    (∀ pad tail : List Nat, pad.length = 20 →
      parse_header (startFieldBytes ++ endFieldBytes ++ pad ++ modelFieldBytes ++ tail) =
        .ok ⟨⟨2024, 6, 11, 22, 33, 0⟩, ⟨2024, 6, 12, 6, 29, 0⟩,
          "YH560A-243220492"⟩) := by
  constructor
  · intro b1 b2 h12 h32
    have h06 : pySlice b1 0 6 = pySlice b2 0 6 := by
      simp only [pySlice, List.drop_zero]
      calc b1.take 6 = (b1.take 12).take 6 := by
            rw [List.take_take]
            norm_num
        _ = (b2.take 12).take 6 := by rw [h12]
        _ = b2.take 6 := by
            rw [List.take_take]
            norm_num
    have h612 : pySlice b1 6 12 = pySlice b2 6 12 := by
      simp only [pySlice]
      rw [h12]
    simp only [parse_header, h06, h612, h32]
  · intro pad tail hpad
    have hassoc2 : startFieldBytes ++ endFieldBytes ++ pad ++ modelFieldBytes ++ tail =
        (startFieldBytes ++ endFieldBytes) ++ (pad ++ modelFieldBytes ++ tail) := by
      simp [List.append_assoc]
    have hassoc3 : startFieldBytes ++ endFieldBytes ++ pad ++ modelFieldBytes ++ tail =
        (((startFieldBytes ++ endFieldBytes) ++ pad) ++ modelFieldBytes) ++ tail := by
      simp [List.append_assoc]
    have hl6 : startFieldBytes.length = 6 := by decide
    have hl12 : (startFieldBytes ++ endFieldBytes).length = 12 := by decide
    have hl32 : ((startFieldBytes ++ endFieldBytes) ++ pad).length = 32 := by
      simp [List.length_append, hpad, startFieldBytes, endFieldBytes]
    have hl48 : (((startFieldBytes ++ endFieldBytes) ++ pad) ++ modelFieldBytes).length = 48 := by
      simp [List.length_append, hpad, startFieldBytes, endFieldBytes, modelFieldBytes]
    have h06 : pySlice (startFieldBytes ++ endFieldBytes ++ pad ++ modelFieldBytes ++ tail)
        0 6 = startFieldBytes := by
      simp only [pySlice, List.drop_zero]
      exact List.take_left' hl6
    have h612 : pySlice (startFieldBytes ++ endFieldBytes ++ pad ++ modelFieldBytes ++ tail)
        6 12 = endFieldBytes := by
      simp only [pySlice]
      rw [hassoc2, List.take_left' hl12, List.drop_left' hl6]
    have h3248 : pySlice (startFieldBytes ++ endFieldBytes ++ pad ++ modelFieldBytes ++ tail)
        32 48 = modelFieldBytes := by
      simp only [pySlice]
      rw [hassoc3, List.take_left' hl48, List.drop_left' hl32]
    have hps : parse_time startFieldBytes = .ok ⟨2024, 6, 11, 22, 33, 0⟩ := by decide
    have hpe : parse_time endFieldBytes = .ok ⟨2024, 6, 12, 6, 29, 0⟩ := by decide
    have hlm : latin1 modelFieldBytes = "YH560A-243220492" := by decide
    simp only [parse_header, h06, h612, h3248, hps, hpe, hlm, ok_bind]
    rfl

/-- C8 witness: a full 48-byte buffer with zero filler in `[12,32)` decodes
to the worked header values. -/
theorem C8_witness :
    parse_header (startFieldBytes ++ endFieldBytes ++ List.replicate 20 0 ++
        modelFieldBytes ++ []) =
      .ok ⟨⟨2024, 6, 11, 22, 33, 0⟩, ⟨2024, 6, 12, 6, 29, 0⟩, "YH560A-243220492"⟩ :=
  C8_header_offsets.2 (List.replicate 20 0) [] (by decide)

/-! ### C9 — top-level error handling -/

/-- C9 counterexample: when the input file is missing, the error is printed
but the run's exit status is 0 — the process does not exit with a failure
indication. -/
theorem C9_counterexample :
    (main_run .missing).lines = [.errorLine "File not found: 00100009.bys"] ∧
    (main_run .missing).exitCode = 0 := by
  decide

/-- C9 (amended): on every pipeline failure the error description is printed
as the final line, no report line follows it and no chart is shown; but the
`except` block swallows the exception, so the process always exits with
status 0, not with a failure indication. -/
theorem C9_error_handling :
    main_run .missing = ⟨[.errorLine "File not found: 00100009.bys"], false, 0⟩ ∧
    (∀ (buf : List Nat) (e : String), parse_header buf = .error e →
      main_run (.found buf) = ⟨[.errorLine e], false, 0⟩) ∧
    (∀ (buf : List Nat) (h : Header) (e : String), parse_header buf = .ok h →
      analyze_pressure_data h.start_time (parse_hex_data buf) = .error e →
      main_run (.found buf) =
        ⟨[.startLine h.start_time, .endLine h.end_time, .modelLine h.device_model,
          .errorLine e], false, 0⟩) ∧
    (∀ inp : Input, (main_run inp).exitCode = 0) := by
  refine ⟨rfl, ?_, ?_, ?_⟩
  · intro buf e he
    simp [main_run, he]
  · intro buf h e hph hana
    simp [main_run, hph, hana]
  · intro inp
    rcases inp with _ | buf
    · rfl
    · rcases hph : parse_header buf with e | h
      · simp [main_run, hph]
      · rcases hana : analyze_pressure_data h.start_time (parse_hex_data buf) with e | r
        · simp [main_run, hph, hana]
        · simp [main_run, hph, hana]

/-- C9 witness: the empty buffer fails header decoding; the run prints only
the error line and exits with status 0. -/
theorem C9_witness :
    main_run (.found []) =
      ⟨[.errorLine "invalid literal for int with base 16"], false, 0⟩ :=
  C9_error_handling.2.1 [] "invalid literal for int with base 16" (by decide)

/-! ### C10 — pressure bounds -/

/-- A 56-byte all-byte buffer whose decoded samples are 26 zeros, then 5,
then a trailing 0. -/
def exampleBytes2 : List Nat := List.replicate 52 0 ++ [0, 5, 0, 0]

/-- The analysis outcome on `exampleBytes2`. -/
def exampleResult2 : AnalysisResult := ⟨1, 5, 5, 5, [5], [exampleStart]⟩

/-- Evaluating the analysis on `exampleBytes2`. -/
theorem analyze_example2 :
    analyze_pressure_data exampleStart (parse_hex_data exampleBytes2) =
      .ok exampleResult2 := by
  have hv : validSlice (parse_hex_data exampleBytes2) = [5] := by decide
  have hmed : median [5] = 5 := by
    simp [median, sortList, insertSorted]
  simp only [analyze_pressure_data, hv, hmed]
  decide

/-- C10: on every successful analysis of a decoded byte buffer, every
retained sample lies in `[2, 65535]` (each sample is decoded from at most
two bytes and the filter removes all values `≤ 1`), and consequently
`2 ≤ min_pressure ≤ max_pressure ≤ 65535`. -/
theorem C10_pressure_bounds (start : Datetime) (buf : List Nat) (r : AnalysisResult)
    (hb : ∀ b ∈ buf, b < 256)
    (h : analyze_pressure_data start (parse_hex_data buf) = .ok r) :
    (∀ x ∈ r.valid_pressures, 2 ≤ x ∧ x ≤ 65535) ∧
    2 ≤ r.min_pressure ∧ r.min_pressure ≤ r.max_pressure ∧
    r.max_pressure ≤ 65535 := by
  obtain ⟨hne, hvp, -, hmax, hmin, -, -⟩ := analyze_ok h
  have hmem : ∀ x ∈ validSlice (parse_hex_data buf), 2 ≤ x ∧ x ≤ 65535 := by
    intro x hx
    exact ⟨mem_validSlice_lt hx, parse_hex_data_le hb x (mem_of_mem_validSlice hx)⟩
  constructor
  · rw [hvp]
    exact hmem
  · refine ⟨?_, ?_, ?_⟩
    · rw [hmin]
      exact (hmem _ (listMin_mem hne)).1
    · rw [hmin, hmax]
      exact le_listMax (listMin_mem hne)
    · rw [hmax]
      exact (hmem _ (listMax_mem hne)).2

/-- C10 witness: the bounds hold for the analysis of `exampleBytes2`. -/
theorem C10_witness :
    2 ≤ exampleResult2.min_pressure ∧
    exampleResult2.min_pressure ≤ exampleResult2.max_pressure ∧
    exampleResult2.max_pressure ≤ 65535 :=
  (C10_pressure_bounds exampleStart exampleBytes2 exampleResult2
    (by decide) analyze_example2).2

end Sleep
